import Mathlib

/-!
Shallow embedding of `src/server.js`: an Express proxy for the IMLeagues API.
The global mutable `auth` record becomes explicit state passing; the network
(`fetch`) becomes an oracle `Net : Request → Response`; each route handler is a
pure function returning the list of outbound requests it issued, the local
response (status and JSON body), and the resulting auth state.
-/

set_option maxRecDepth 4000

namespace ImStats

/-- JavaScript/JSON values as they flow through this program (JSON numbers are
modelled as exact rationals; the float rounding of the runtime is irrelevant to
the properties proved here, which never compare non-integral numerals). -/
inductive Json where
  | null : Json
  | bool (b : Bool) : Json
  | num (q : ℚ) : Json
  | str (s : String) : Json
  | arr (xs : List Json) : Json
  | obj (fields : List (String × Json)) : Json

/-- Whether a JSON value is the JS `null`. -/
def Json.isNull : Json → Bool
  | .null => true
  | _ => false

/-- JS falsiness of a value (`null`, `false`, `0`, `""` are falsy; objects and
arrays are always truthy; `NaN` does not arise since our numbers are finite). -/
def jsFalsy : Json → Bool
  | .null => true
  | .bool b => !b
  | .num q => decide (q = 0)
  | .str s => decide (s = "")
  | .arr _ => false
  | .obj _ => false

/-- JS truthiness of a possibly-`undefined` value (`none` models `undefined`). -/
def jsTruthyOpt : Option Json → Bool
  | none => false
  | some v => !jsFalsy v

/-- Property access `v.k` (with optional chaining): a field of an object, else
`undefined` (`none`). -/
def Json.getField : Json → String → Option Json
  | .obj fs, k => fs.lookup k
  | _, _ => none

/-- Nullish coalescing `v ?? d` applied to a possibly-`undefined` value. -/
def nullishGetD (v : Option Json) (d : Json) : Json :=
  match v with
  | none => d
  | some .null => d
  | some x => x

/-- Modelled from the spec: JS number-to-string conversion. Exact for the
integral values this program produces; non-integral rationals are rendered as
fractions (never observed by any property proved here). -/
def jsNumRepr (q : ℚ) : String :=
  if q.den = 1 then toString q.num else toString q.num ++ "/" ++ toString q.den

/-- Concatenation of character chunks. -/
def flatJoin (ls : List (List Char)) : List Char :=
  ls.foldr (· ++ ·) []

/-- Modelled from the spec: JSON string escaping as performed by
`JSON.stringify` (quote, backslash and the common control characters; other
control characters do not occur in this program's payloads). -/
def jsEscapeChar (c : Char) : List Char :=
  if c = '"' then ['\\', '"']
  else if c = '\\' then ['\\', '\\']
  else if c = '\n' then ['\\', 'n']
  else if c = '\r' then ['\\', 'r']
  else if c = '\t' then ['\\', 't']
  else [c]

/-- Escape a string for inclusion in serialized JSON. -/
def jsEscape (s : String) : String :=
  ⟨flatJoin (s.data.map jsEscapeChar)⟩

mutual

/-- Modelled from the spec: `JSON.stringify` on the values this program
serializes. -/
def jsonStringify : Json → String
  | .null => "null"
  | .bool b => if b then "true" else "false"
  | .num q => jsNumRepr q
  | .str s => "\"" ++ jsEscape s ++ "\""
  | .arr xs => "[" ++ stringifyArr xs ++ "]"
  | .obj fs => "\x7b" ++ stringifyFields fs ++ "\x7d"

/-- Serialize the elements of a JSON array, comma separated. -/
def stringifyArr : List Json → String
  | [] => ""
  | [x] => jsonStringify x
  | x :: xs => jsonStringify x ++ "," ++ stringifyArr xs

/-- Serialize the fields of a JSON object, comma separated. -/
def stringifyFields : List (String × Json) → String
  | [] => ""
  | [(k, v)] => "\"" ++ jsEscape k ++ "\":" ++ jsonStringify v
  | (k, v) :: xs => "\"" ++ jsEscape k ++ "\":" ++ jsonStringify v ++ "," ++ stringifyFields xs

end

mutual

/-- Modelled from the spec: JS `String()` conversion (used by template literals
and `String(x)` in the source). Strings convert to themselves, arrays join
their converted elements with commas, objects print as `[object Object]`. -/
def jsToString : Json → String
  | .null => "null"
  | .bool b => if b then "true" else "false"
  | .num q => jsNumRepr q
  | .str s => s
  | .arr xs => jsToStringArr xs
  | .obj _ => "[object Object]"

/-- JS array-to-string: elements joined by commas, `null` rendered empty. -/
def jsToStringArr : List Json → String
  | [] => ""
  | [x] => if x.isNull then "" else jsToString x
  | x :: xs => (if x.isNull then "" else jsToString x) ++ "," ++ jsToStringArr xs

end

/-- Modelled from the spec: whitespace stripped by JS `Number()` (the ASCII
whitespace characters and NBSP; the exotic Unicode space characters do not
occur in this program's inputs). -/
def isJsWs (c : Char) : Bool :=
  c = ' ' || c = '\t' || c = '\n' || c = '\r' || c = '\x0b' || c = '\x0c' || c = '\xa0'

/-- Value of a single digit character in radix up to 16, else `none`. -/
def digitVal (c : Char) : Option Nat :=
  if '0' ≤ c ∧ c ≤ '9' then some (c.toNat - '0'.toNat)
  else if 'a' ≤ c ∧ c ≤ 'f' then some (c.toNat - 'a'.toNat + 10)
  else if 'A' ≤ c ∧ c ≤ 'F' then some (c.toNat - 'A'.toNat + 10)
  else none

/-- Value of a non-empty digit string in the given radix, else `none`. -/
def radixVal (radix : Nat) : List Char → Option Nat
  | [] => none
  | l =>
    l.foldl
      (fun acc c =>
        match acc, digitVal c with
        | some a, some d => if d < radix then some (a * radix + d) else none
        | _, _ => none)
      (some 0)

/-- Split a character list at the first character satisfying `p`: the part
before, and (if found) the part after the splitting character. -/
def breakAtP (p : Char → Bool) : List Char → List Char × Option (List Char)
  | [] => ([], none)
  | c :: cs =>
    if p c then ([], some cs)
    else
      let r := breakAtP p cs
      (c :: r.1, r.2)

/-- Value of an unsigned JS decimal literal
(`digits [. digits] [e|E [+|-] digits]`), else `none`. -/
def unsignedDecVal (l : List Char) : Option ℚ :=
  let me := breakAtP (fun c => c = 'e' || c = 'E') l
  let expVal : Option ℤ :=
    match me.2 with
    | none => some 0
    | some ec =>
      match ec with
      | '+' :: ds => (radixVal 10 ds).map Int.ofNat
      | '-' :: ds => (radixVal 10 ds).map (fun n => -(n : ℤ))
      | ds => (radixVal 10 ds).map Int.ofNat
  match expVal with
  | none => none
  | some e =>
    let mf := breakAtP (fun c => c = '.') me.1
    match mf.2 with
    | none => (radixVal 10 mf.1).map (fun n => (n : ℚ) * (10 : ℚ) ^ e)
    | some fp =>
      if mf.1.isEmpty && fp.isEmpty then none
      else
        let ipv : Option Nat := if mf.1.isEmpty then some 0 else radixVal 10 mf.1
        let fpv : Option Nat := if fp.isEmpty then some 0 else radixVal 10 fp
        match ipv, fpv with
        | some a, some b =>
          some (((a : ℚ) + (b : ℚ) / (10 : ℚ) ^ fp.length) * (10 : ℚ) ^ e)
        | _, _ => none

/-- Modelled from the spec: JS `Number(string)` restricted to its finiteness
and value — `some q` when the string converts to the finite number `q`, `none`
when it converts to `NaN` or `±Infinity` (the source only tests
`Number.isFinite` and forwards the value opaquely). -/
def jsToNumberFinite (s : String) : Option ℚ :=
  let l := ((s.data.dropWhile isJsWs).reverse.dropWhile isJsWs).reverse
  if l.isEmpty then some 0
  else if l = "Infinity".data || l = "+Infinity".data || l = "-Infinity".data then none
  else
    match l with
    | '0' :: 'x' :: ds => (radixVal 16 ds).map (fun n => (n : ℚ))
    | '0' :: 'X' :: ds => (radixVal 16 ds).map (fun n => (n : ℚ))
    | '0' :: 'o' :: ds => (radixVal 8 ds).map (fun n => (n : ℚ))
    | '0' :: 'O' :: ds => (radixVal 8 ds).map (fun n => (n : ℚ))
    | '0' :: 'b' :: ds => (radixVal 2 ds).map (fun n => (n : ℚ))
    | '0' :: 'B' :: ds => (radixVal 2 ds).map (fun n => (n : ℚ))
    | '+' :: rest => unsignedDecVal rest
    | '-' :: rest => (unsignedDecVal rest).map (fun q => -q)
    | rest => unsignedDecVal rest

/-- Characters left unescaped by `encodeURIComponent`
(`A–Z a–z 0–9 - _ . ! ~ * ' ( )`). -/
def isUriUnreserved (c : Char) : Bool :=
  c.isAlpha || c.isDigit ||
    c = '-' || c = '_' || c = '.' || c = '!' || c = '~' || c = '*' ||
    c = Char.ofNat 39 || c = '(' || c = ')'

/-- UTF-8 bytes of a character (standard encoding; the masks make the byte
bound `< 256` syntactically evident and agree with the usual formulas on every
valid code point). -/
def charUtf8Bytes (c : Char) : List Nat :=
  let n := c.toNat
  if n < 0x80 then [n]
  else if n < 0x800 then [0xC0 + (n / 0x40) % 0x40, 0x80 + n % 0x40]
  else if n < 0x10000 then
    [0xE0 + (n / 0x1000) % 0x10, 0x80 + (n / 0x40) % 0x40, 0x80 + n % 0x40]
  else
    [0xF0 + (n / 0x40000) % 0x8, 0x80 + (n / 0x1000) % 0x40,
     0x80 + (n / 0x40) % 0x40, 0x80 + n % 0x40]

/-- Uppercase hexadecimal digit character. -/
def hexChar (n : Nat) : Char :=
  if n < 10 then Char.ofNat (48 + n) else Char.ofNat (55 + n)

/-- Percent-encoding of a single byte. -/
def pctByte (b : Nat) : List Char :=
  ['%', hexChar (b / 16), hexChar (b % 16)]

/-- Encoding of a single character under `encodeURIComponent`. -/
def encChar (c : Char) : List Char :=
  if isUriUnreserved c then [c] else flatJoin ((charUtf8Bytes c).map pctByte)

/-- Modelled from the spec: the JS `encodeURIComponent` builtin — unreserved
characters kept, every other character percent-encoded per UTF-8 byte. -/
def encodeURIComponent (s : String) : String :=
  ⟨flatJoin (s.data.map encChar)⟩

/-! ## Process state and the network oracle -/

/-- The process environment variables the server reads (`none` = unset). -/
structure Env where
  IML_EMAIL : Option String
  IML_PASSWORD : Option String
  IML_SCHOOL_ID : Option String
  IML_NETWORK_ID : Option String

/-- The global mutable `auth` record of `server.js`
(`none` models JS `null`). -/
structure Auth where
  jwtTokenForSPA : Option Json
  jwtTokenIndexForSPA : Option Json
  loggedInAt : Nat

/-- The initial value of the `auth` record. -/
def initialAuth : Auth :=
  { jwtTokenForSPA := none, jwtTokenIndexForSPA := none, loggedInAt := 0 }

/-- An outbound HTTP request as assembled by the server (body already
serialized). -/
structure Request where
  url : String
  method : String
  headers : List (String × String)
  body : Option String

/-- An external response: HTTP status, raw body text, and the result of
parsing that text as JSON (`none` when `JSON.parse` would throw). The `json`
field records the outcome of the runtime's JSON parser on `text`, so the model
does not re-implement the parser. -/
structure Response where
  status : Nat
  text : String
  json : Option Json

/-- Fetch API `res.ok`: status in the range 200–299. -/
def Response.isOk (r : Response) : Bool :=
  decide (200 ≤ r.status) && decide (r.status < 300)

/-- The external world: a deterministic response for every outbound request. -/
def Net : Type := Request → Response

/-- A thrown JS `Error`: its message, plus the `status`/`body` fields that
`imlFetch` attaches. -/
structure JsErr where
  message : String
  status : Option Nat
  body : Option Json

/-- How the route handlers stringify a caught error, `String(e.message || e)` stringify a caught error
(every error this program throws has a non-empty message). -/
def errString (e : JsErr) : String :=
  if e.message = "" then "Error" else e.message

/-- The external API base URL. -/
def IML_BASE : String := "https://api.imleagues.com/"

/-- Model of `mustEnv`: return the environment value, throwing when it is absent or
empty (JS falsiness of a string). -/
def mustEnv (name : String) (v : Option String) : Except JsErr String :=
  match v with
  | some s => if s = "" then .error ⟨"Missing env var: " ++ name, none, none⟩ else .ok s
  | none => .error ⟨"Missing env var: " ++ name, none, none⟩

/-! ## Session manager and forwarder -/

/-- Model of `imlAuthHeaders`: empty when no truthy token is held, otherwise a bearer
authorization header carrying the token. -/
def imlAuthHeaders (auth : Auth) : List (String × String) :=
  match auth.jwtTokenForSPA with
  | none => []
  | some t => if jsFalsy t then [] else [("Authorization", "Bearer " ++ jsToString t)]

/-- Whether `pre` is a prefix of `s` (a structural version of
`String.startsWith`, kept kernel-reducible). -/
def strHasPre (pre s : String) : Bool :=
  pre.data.isPrefixOf s.data

/-- Model of `path.replace(/^\//, "")`: strip one leading slash when present. -/
def stripLeadSlash (p : String) : String :=
  match p.data with
  | '/' :: rest => ⟨rest⟩
  | _ => p

/-- URL resolution in `imlFetch`: absolute URLs pass through, otherwise one
leading slash is stripped and the base URL prepended. -/
def imlFetchUrl (path : String) : String :=
  if strHasPre "http" path then path else IML_BASE ++ stripLeadSlash path

/-- The request `imlFetch` assembles: `Content-Type: application/json` only
when a (truthy) body exists, merged with the current auth header, body
JSON-serialized. -/
def imlFetchRequest (auth : Auth) (path method : String) (body : Option Json) : Request :=
  { url := imlFetchUrl path
    method := method
    headers :=
      (if jsTruthyOpt body then [("Content-Type", "application/json")] else [])
        ++ imlAuthHeaders auth
    body :=
      match body with
      | some b => if jsFalsy b then none else some (jsonStringify b)
      | none => none }

/-- The value of the local variable `json` in `imlFetch`: `null` when the text
is empty, else the parse result, with a parse failure caught to `null`. -/
def imlFetchJson (r : Response) : Json :=
  if r.text = "" then .null
  else
    match r.json with
    | some v => v
    | none => .null

/-- What `imlFetch` produces from a response: `json ?? text` on success, or a
thrown error carrying the status and raw body on a non-success status. -/
def imlFetchResult (path : String) (r : Response) : Except JsErr Json :=
  let json := imlFetchJson r
  if r.isOk then .ok (if json.isNull then .str r.text else json)
  else
    .error
      { message :=
          "IMLeagues API error (" ++ toString r.status ++ ") on " ++ path ++ ": " ++ r.text
        status := some r.status
        body := some (if json.isNull then .str r.text else json) }

/-- One `imlFetch` call: the request issued and the outcome. -/
structure FetchOut where
  request : Request
  result : Except JsErr Json

/-- Model of `imlFetch(path, { method, body })` against the network oracle. -/
def imlFetch (net : Net) (auth : Auth) (path method : String) (body : Option Json) : FetchOut :=
  let req := imlFetchRequest auth path method body
  { request := req, result := imlFetchResult path (net req) }

/-- The fixed login payload `imlAdminLogin` sends
(`schoolId` falls back to `""` when the variable is unset or empty). -/
def loginPayload (env : Env) (email password : String) : Json :=
  .obj
    [ ("schoolId", .str (match env.IML_SCHOOL_ID with | some s => s | none => "")),
      ("forAdminSite", .bool true),
      ("forApp", .bool false),
      ("email", .str email),
      ("password", .str password),
      ("isSSO", .bool false),
      ("isHttps", .bool true),
      ("isMobileDevice", .bool false),
      ("isElectron", .bool false),
      ("clientType", .num 0),
      ("timezone", .num (-300)) ]

/-- The login request `imlAdminLogin` issues. -/
def loginRequest (env : Env) (email password : String) : Request :=
  { url := IML_BASE ++ "admin/account/login"
    method := "POST"
    headers := [("Content-Type", "application/json")]
    body := some (jsonStringify (loginPayload env email password)) }

/-- The value `data.jwtTokenIndexForSPA ?? null` as stored in the auth record
(`none` models JS `null`). -/
def loginIndexOf (data : Json) : Option Json :=
  match data.getField "jwtTokenIndexForSPA" with
  | some v => if v.isNull then none else some v
  | none => none

/-- Outcome of `imlAdminLogin`: outbound requests issued, the returned auth
record or the thrown error, and the resulting global `auth` state. -/
structure LoginOut where
  calls : List Request
  result : Except JsErr Auth
  auth : Auth

/-- Model of `imlAdminLogin()`: read credentials from the environment, post the fixed
payload to the login endpoint, and on a success response carrying a truthy
`jwtTokenForSPA` overwrite the global `auth` record wholesale. -/
def imlAdminLogin (env : Env) (net : Net) (now : Nat) (auth : Auth) : LoginOut :=
  match mustEnv "IML_EMAIL" env.IML_EMAIL with
  | .error e => ⟨[], .error e, auth⟩
  | .ok email =>
    match mustEnv "IML_PASSWORD" env.IML_PASSWORD with
    | .error e => ⟨[], .error e, auth⟩
    | .ok password =>
      let req := loginRequest env email password
      let res := net req
      let data : Json := (res.json).getD .null
      if !res.isOk then
        ⟨[req],
         .error ⟨"IMLeagues login failed (" ++ toString res.status ++ "): "
             ++ jsonStringify data, none, none⟩,
         auth⟩
      else if !(jsTruthyOpt (data.getField "jwtTokenForSPA")) then
        ⟨[req],
         .error ⟨"Login succeeded but no jwtTokenForSPA returned: "
             ++ jsonStringify data, none, none⟩,
         auth⟩
      else
        match data.getField "jwtTokenForSPA" with
        | some tok =>
          let newAuth : Auth :=
            { jwtTokenForSPA := some tok
              jwtTokenIndexForSPA := loginIndexOf data
              loggedInAt := now }
          ⟨[req], .ok newAuth, newAuth⟩
        | none => ⟨[req], .error ⟨"", none, none⟩, auth⟩

/-! ## Route handlers -/

/-- What a route handler produces: outbound requests issued, local HTTP
status and JSON body, and the resulting global `auth` state. -/
structure HandlerOut where
  calls : List Request
  status : Nat
  body : Json
  auth : Auth

/-- The `{ ok: false, error: ... }` body the catch blocks send. -/
def errBody (e : JsErr) : Json :=
  .obj [("ok", .bool false), ("error", .str (errString e))]

/-- Route `POST /api/iml/login`: run `imlAdminLogin`, reply
`{ ok: true, jwtTokenIndexForSPA }`, or 500 on any thrown error. -/
def loginRoute (env : Env) (net : Net) (now : Nat) (auth : Auth) : HandlerOut :=
  let lo := imlAdminLogin env net now auth
  match lo.result with
  | .ok a =>
    ⟨lo.calls, 200,
     .obj [("ok", .bool true),
           ("jwtTokenIndexForSPA", nullishGetD a.jwtTokenIndexForSPA .null)],
     lo.auth⟩
  | .error e => ⟨lo.calls, 500, errBody e, lo.auth⟩

/-- The external path the games route fetches. -/
def gamesApiPath (networkId start₀ end₀ : String) : String :=
  "networks/" ++ encodeURIComponent networkId ++ "/games?start="
    ++ encodeURIComponent start₀ ++ "&end=" ++ encodeURIComponent end₀

/-- The 400 body of the games route. -/
def missingStartEndBody : Json :=
  .obj [("ok", .bool false),
        ("error", .str "Missing start/end query params (ISO datetime strings).")]

/-- Route `GET /api/iml/games`: require the network id from the environment, 400
when `start` or `end` is missing or empty, otherwise forward one fetch. -/
def gamesRoute (env : Env) (net : Net) (auth : Auth) (start₀ end₀ : Option String) :
    HandlerOut :=
  match mustEnv "IML_NETWORK_ID" env.IML_NETWORK_ID with
  | .error e => ⟨[], 500, errBody e, auth⟩
  | .ok networkId =>
    match start₀, end₀ with
    | some st, some en =>
      if st = "" || en = "" then ⟨[], 400, missingStartEndBody, auth⟩
      else
        let f := imlFetch net auth (gamesApiPath networkId st en) "GET" none
        match f.result with
        | .ok data => ⟨[f.request], 200, .obj [("ok", .bool true), ("data", data)], auth⟩
        | .error e => ⟨[f.request], 500, errBody e, auth⟩
    | _, _ => ⟨[], 400, missingStartEndBody, auth⟩

/-- The external path the roster route fetches. -/
def teamsApiPath (teamId : String) : String :=
  "teams/" ++ encodeURIComponent teamId ++ "/members"

/-- Route `GET /api/iml/teams/:teamId/members`: forward one fetch. -/
def teamsRoute (net : Net) (auth : Auth) (teamId : String) : HandlerOut :=
  let f := imlFetch net auth (teamsApiPath teamId) "GET" none
  match f.result with
  | .ok data => ⟨[f.request], 200, .obj [("ok", .bool true), ("data", data)], auth⟩
  | .error e => ⟨[f.request], 500, errBody e, auth⟩

/-- The savescore payload assembled by the route. -/
def savescorePayload (gid : ℚ) (reqBody : Json) : Json :=
  .obj
    [ ("gameResult", .num 1),
      ("periodDetails", .arr []),
      ("team1Score", .str (jsToString (nullishGetD (reqBody.getField "team1Score") (.str "")))),
      ("team2Score", .str (jsToString (nullishGetD (reqBody.getField "team2Score") (.str "")))),
      ("comments", nullishGetD (reqBody.getField "comments") (.str "")),
      ("gameId", .num gid),
      ("gameType", match reqBody.getField "gameType" with | some v => v | none => .null) ]

/-- Route `POST /api/iml/games/:gameId/savescore`: a reactive login first when no
token is held, then local validation of `gameId` and `gameType`, then one
forwarded fetch. Any thrown error becomes a local 500. -/
def savescoreRoute (env : Env) (net : Net) (now : Nat) (auth : Auth)
    (gameIdStr : String) (reqBody : Json) : HandlerOut :=
  let step : List Request × Except JsErr Unit × Auth :=
    if jsTruthyOpt auth.jwtTokenForSPA then ([], .ok (), auth)
    else
      let lo := imlAdminLogin env net now auth
      (lo.calls,
       (match lo.result with | .ok _ => .ok () | .error e => .error e),
       lo.auth)
  match step with
  | (calls₀, .error e, a₁) => ⟨calls₀, 500, errBody e, a₁⟩
  | (calls₀, .ok _, a₁) =>
    match jsToNumberFinite gameIdStr with
    | none => ⟨calls₀, 400, .obj [("ok", .bool false), ("error", .str "Invalid gameId")], a₁⟩
    | some gid =>
      match reqBody.getField "gameType" with
      | none =>
        ⟨calls₀, 400,
         .obj [("ok", .bool false), ("error", .str "Missing gameType (number)")], a₁⟩
      | some _ =>
        let f := imlFetch net a₁ "v3/me/games/savescore" "POST" (some (savescorePayload gid reqBody))
        match f.result with
        | .ok data => ⟨calls₀ ++ [f.request], 200, .obj [("ok", .bool true), ("data", data)], a₁⟩
        | .error e => ⟨calls₀ ++ [f.request], 500, errBody e, a₁⟩

/-! ## Reachable states of the `auth` record -/

/-- The Session is fully absent: no token, no index token, no timestamp. -/
def SessionAbsent (a : Auth) : Prop :=
  a.jwtTokenForSPA = none ∧ a.jwtTokenIndexForSPA = none ∧ a.loggedInAt = 0

/-- The Session is fully present: a truthy token is held and the acquisition
time is recorded. -/
def SessionPresent (a : Auth) : Prop :=
  (∃ t, a.jwtTokenForSPA = some t ∧ jsFalsy t = false) ∧ 0 < a.loggedInAt

/-- Every `auth` state the process can reach: the initial state, and the state
after any route handler or direct login, at any (positive) current time and
against any external world. -/
inductive Reachable (env : Env) : Auth → Prop where
  | init : Reachable env initialAuth
  | loginStep (net : Net) (now : Nat) (a : Auth) (h : Reachable env a) (hnow : 0 < now) :
      Reachable env (imlAdminLogin env net now a).auth
  | loginRouteStep (net : Net) (now : Nat) (a : Auth) (h : Reachable env a) (hnow : 0 < now) :
      Reachable env (loginRoute env net now a).auth
  | gamesStep (net : Net) (a : Auth) (start₀ end₀ : Option String) (h : Reachable env a) :
      Reachable env (gamesRoute env net a start₀ end₀).auth
  | teamsStep (net : Net) (a : Auth) (teamId : String) (h : Reachable env a) :
      Reachable env (teamsRoute net a teamId).auth
  | savescoreStep (net : Net) (now : Nat) (a : Auth) (gameIdStr : String) (reqBody : Json)
      (h : Reachable env a) (hnow : 0 < now) :
      Reachable env (savescoreRoute env net now a gameIdStr reqBody).auth

/-! ## Concrete fixtures used by witnesses and counterexamples -/

/-- An environment with every variable set. -/
def envFull : Env :=
  { IML_EMAIL := some "admin@example.edu"
    IML_PASSWORD := some "pw"
    IML_SCHOOL_ID := some "S1"
    IML_NETWORK_ID := some "N1" }

/-- An environment missing the network identifier. -/
def envNoNetwork : Env :=
  { IML_EMAIL := some "admin@example.edu"
    IML_PASSWORD := some "pw"
    IML_SCHOOL_ID := some "S1"
    IML_NETWORK_ID := none }

/-- A JSON login-success body carrying only the primary token `T1`. -/
def loginOkJson : Json := .obj [("jwtTokenForSPA", .str "T1")]

/-- A world where the login endpoint succeeds with token `T1` and every other
endpoint answers 200 with an empty JSON array. -/
def netOK : Net := fun r =>
  if r.url = IML_BASE ++ "admin/account/login" then
    ⟨200, "\x7b\"jwtTokenForSPA\":\"T1\"\x7d", some loginOkJson⟩
  else ⟨200, "[]", some (.arr [])⟩

/-- A world where every endpoint fails with a 502 and a non-JSON body. -/
def netDown : Net := fun _ => ⟨502, "Bad Gateway", none⟩

/-- A world where the login endpoint answers 200 but without the primary
token field. -/
def netNoToken : Net := fun r =>
  if r.url = IML_BASE ++ "admin/account/login" then
    ⟨200, "\x7b\"x\":1\x7d", some (.obj [("x", .num 1)])⟩
  else ⟨200, "[]", some (.arr [])⟩

/-- A world answering 200 with the literal body `null` on every endpoint. -/
def netNullBody : Net := fun _ => ⟨200, "null", some .null⟩

/-- An `auth` state already holding token `T0`. -/
def authT0 : Auth :=
  { jwtTokenForSPA := some (.str "T0"), jwtTokenIndexForSPA := none, loggedInAt := 5 }

/-- The auth record produced by a successful login against `netOK` at time 3. -/
def authT1At3 : Auth :=
  { jwtTokenForSPA := some (.str "T1"), jwtTokenIndexForSPA := none, loggedInAt := 3 }

/-! ## Classifications used in theorem statements -/

/-- Whether a thrown message is one of the two login failures the spec calls
`AuthError` (non-success status, or success without the primary token). -/
def isAuthErrorMsg (m : String) : Bool :=
  strHasPre "IMLeagues login failed (" m
    || strHasPre "Login succeeded but no jwtTokenForSPA returned: " m

/-- Whether an outbound request targets the external login endpoint. -/
def isLoginCall (r : Request) : Bool :=
  decide (r.url = IML_BASE ++ "admin/account/login")

/-- Substring occurrence: `sub` occurs contiguously inside `s`. -/
def containsSub (s sub : String) : Prop :=
  ∃ a b, s = a ++ sub ++ b

/-- A handler outcome surfacing an upstream failure on response `r`: local
status 500 and a `{ ok: false, error: msg }` body whose message contains the
external status code and the raw response body. -/
def upstream500 (out : HandlerOut) (r : Response) : Prop :=
  out.status = 500
  ∧ ∃ msg, out.body = Json.obj [("ok", Json.bool false), ("error", Json.str msg)]
      ∧ containsSub msg (toString r.status)
      ∧ containsSub msg r.text

/-! ## General helper lemmas -/

theorem strData_append (a b : String) : (a ++ b).data = a.data ++ b.data := rfl

theorem strExt {s t : String} (h : s.data = t.data) : s = t := by
  cases s; cases t; exact congrArg String.mk h

theorem strAppend_assoc (a b c : String) : a ++ b ++ c = a ++ (b ++ c) :=
  strExt (by simp [strData_append])

theorem strAppend_left_cancel {p x y : String} (h : p ++ x = p ++ y) : x = y := by
  have hd : p.data ++ x.data = p.data ++ y.data := by
    have := congrArg String.data h
    simpa [strData_append] using this
  exact strExt (List.append_cancel_left hd)

theorem strNeEmpty_of_data {s : String} (h : s.data ≠ []) : s ≠ "" := by
  intro he
  exact h (by simpa using congrArg String.data he)

theorem strHasPre_append (p s : String) : strHasPre p (p ++ s) = true := by
  simp [strHasPre, strData_append, List.isPrefixOf_iff_prefix]

theorem mustEnv_ok {name s : String} (h : s ≠ "") : mustEnv name (some s) = .ok s := by
  simp [mustEnv, h]

/-! ## Characterizations of `imlAdminLogin` -/

theorem imlAdminLogin_badStatus (env : Env) (net : Net) (now : Nat) (a : Auth)
    (em pw : String)
    (he : env.IML_EMAIL = some em) (he' : em ≠ "")
    (hp : env.IML_PASSWORD = some pw) (hp' : pw ≠ "")
    (hbad : (net (loginRequest env em pw)).isOk = false) :
    imlAdminLogin env net now a =
      ⟨[loginRequest env em pw],
       .error ⟨"IMLeagues login failed (" ++ toString (net (loginRequest env em pw)).status
           ++ "): " ++ jsonStringify ((net (loginRequest env em pw)).json.getD .null),
         none, none⟩,
       a⟩ := by
  simp [imlAdminLogin, he, hp, mustEnv, he', hp', hbad]

theorem imlAdminLogin_noToken (env : Env) (net : Net) (now : Nat) (a : Auth)
    (em pw : String)
    (he : env.IML_EMAIL = some em) (he' : em ≠ "")
    (hp : env.IML_PASSWORD = some pw) (hp' : pw ≠ "")
    (hok : (net (loginRequest env em pw)).isOk = true)
    (hno : jsTruthyOpt
        (((net (loginRequest env em pw)).json.getD .null).getField "jwtTokenForSPA") = false) :
    imlAdminLogin env net now a =
      ⟨[loginRequest env em pw],
       .error ⟨"Login succeeded but no jwtTokenForSPA returned: "
           ++ jsonStringify ((net (loginRequest env em pw)).json.getD .null),
         none, none⟩,
       a⟩ := by
  simp [imlAdminLogin, he, hp, mustEnv, he', hp', hok, hno]

theorem imlAdminLogin_success (env : Env) (net : Net) (now : Nat) (a : Auth)
    (em pw : String) (t : Json)
    (he : env.IML_EMAIL = some em) (he' : em ≠ "")
    (hp : env.IML_PASSWORD = some pw) (hp' : pw ≠ "")
    (hok : (net (loginRequest env em pw)).isOk = true)
    (htok : ((net (loginRequest env em pw)).json.getD .null).getField "jwtTokenForSPA" = some t)
    (ht : jsFalsy t = false) :
    imlAdminLogin env net now a =
      ⟨[loginRequest env em pw],
       .ok ⟨some t, loginIndexOf ((net (loginRequest env em pw)).json.getD .null), now⟩,
       ⟨some t, loginIndexOf ((net (loginRequest env em pw)).json.getD .null), now⟩⟩ := by
  simp [imlAdminLogin, he, hp, mustEnv, he', hp', hok, htok, jsTruthyOpt, ht]

theorem savescore_held_invalidGameId (env : Env) (net : Net) (now : Nat) (a : Auth)
    (g : String) (b : Json)
    (hheld : jsTruthyOpt a.jwtTokenForSPA = true)
    (hnan : jsToNumberFinite g = none) :
    savescoreRoute env net now a g b =
      ⟨[], 400, .obj [("ok", .bool false), ("error", .str "Invalid gameId")], a⟩ := by
  simp [savescoreRoute, hheld, hnan]

/-! ## Claim C1 -/

/-- C1, counterexample: with no Session held, the score-submission route with
`gameId = "abc"` does return local status 400 — but it first performs an
outbound login call, so the claim's "performs no outbound calls ... in every
session state" is false. -/
theorem c1_counterexample :
    (savescoreRoute envFull netOK 1 initialAuth "abc"
        (Json.obj [("gameType", Json.num 1)])).status = 400
    ∧ (savescoreRoute envFull netOK 1 initialAuth "abc"
        (Json.obj [("gameType", Json.num 1)])).calls.length = 1 :=
  ⟨rfl, rfl⟩

/-- C1 (amended): for every score-submission request whose `gameId` path
parameter is not numerically parseable, **when a Session is held**, the system
returns local status 400 with an "Invalid gameId" message, performs no
outbound calls, and leaves the Session unchanged. (When no Session is held the
route first performs a reactive login call, as the counterexample shows.) -/
theorem c1_invalid_gameId_with_session (env : Env) (net : Net) (now : Nat) (a : Auth)
    (g : String) (b : Json)
    (hheld : jsTruthyOpt a.jwtTokenForSPA = true)
    (hnan : jsToNumberFinite g = none) :
    (savescoreRoute env net now a g b).status = 400
    ∧ (savescoreRoute env net now a g b).body
        = .obj [("ok", .bool false), ("error", .str "Invalid gameId")]
    ∧ (savescoreRoute env net now a g b).calls = []
    ∧ (savescoreRoute env net now a g b).auth = a := by
  rw [savescore_held_invalidGameId env net now a g b hheld hnan]
  exact ⟨rfl, rfl, rfl, rfl⟩

/-- C1 witness: the amended theorem applied at a held Session (`authT0`) and
`gameId = "abc"`. -/
theorem c1_witness :
    (savescoreRoute envFull netOK 1 authT0 "abc" (Json.obj [])).status = 400
    ∧ (savescoreRoute envFull netOK 1 authT0 "abc" (Json.obj [])).body
        = .obj [("ok", .bool false), ("error", .str "Invalid gameId")]
    ∧ (savescoreRoute envFull netOK 1 authT0 "abc" (Json.obj [])).calls = []
    ∧ (savescoreRoute envFull netOK 1 authT0 "abc" (Json.obj [])).auth = authT0 :=
  c1_invalid_gameId_with_session envFull netOK 1 authT0 "abc" (Json.obj []) rfl rfl

/-! ## Claim C2 -/

/-- C2: for every prior session state, if `login()` fails — because the
external call returns a non-success status, or because the success response
lacks a (truthy) `jwtTokenForSPA` — it throws one of the two `AuthError`
messages and leaves the previously held Session record unmodified. -/
theorem c2_login_failure_preserves_session (env : Env) (net : Net) (now : Nat) (a : Auth)
    (em pw : String)
    (he : env.IML_EMAIL = some em) (he' : em ≠ "")
    (hp : env.IML_PASSWORD = some pw) (hp' : pw ≠ "")
    (hfail : (net (loginRequest env em pw)).isOk = false
      ∨ jsTruthyOpt
          (((net (loginRequest env em pw)).json.getD .null).getField "jwtTokenForSPA") = false) :
    ∃ e, (imlAdminLogin env net now a).result = .error e
      ∧ isAuthErrorMsg e.message = true
      ∧ (imlAdminLogin env net now a).auth = a := by
  by_cases hok : (net (loginRequest env em pw)).isOk = true
  · have hno : jsTruthyOpt
        (((net (loginRequest env em pw)).json.getD .null).getField "jwtTokenForSPA") = false := by
      rcases hfail with h | h
      · rw [hok] at h; exact absurd h (by simp)
      · exact h
    rw [imlAdminLogin_noToken env net now a em pw he he' hp hp' hok hno]
    exact ⟨_, rfl, by simp [isAuthErrorMsg, strHasPre_append], rfl⟩
  · have hbad : (net (loginRequest env em pw)).isOk = false := by simpa using hok
    rw [imlAdminLogin_badStatus env net now a em pw he he' hp hp' hbad]
    exact ⟨_, rfl, by simp [isAuthErrorMsg, strAppend_assoc, strHasPre_append], rfl⟩

/-- C2 witness: a login whose external response succeeds but omits the primary
token, against a previously held Session `authT0`. -/
theorem c2_witness :
    ∃ e, (imlAdminLogin envFull netNoToken 3 authT0).result = .error e
      ∧ isAuthErrorMsg e.message = true
      ∧ (imlAdminLogin envFull netNoToken 3 authT0).auth = authT0 :=
  c2_login_failure_preserves_session envFull netNoToken 3 authT0 "admin@example.edu" "pw"
    rfl (by decide) rfl (by decide) (Or.inr rfl)

/-! ## Claim C3 -/

theorem savescore_noSession_calls (env : Env) (net : Net) (now : Nat) (a : Auth)
    (em pw : String) (t : Json) (g : String) (b : Json) (gid : ℚ) (gt : Json)
    (hno : jsTruthyOpt a.jwtTokenForSPA = false)
    (he : env.IML_EMAIL = some em) (he' : em ≠ "")
    (hp : env.IML_PASSWORD = some pw) (hp' : pw ≠ "")
    (hok : (net (loginRequest env em pw)).isOk = true)
    (htok : ((net (loginRequest env em pw)).json.getD .null).getField "jwtTokenForSPA" = some t)
    (ht : jsFalsy t = false)
    (hgid : jsToNumberFinite g = some gid)
    (hgt : b.getField "gameType" = some gt) :
    (savescoreRoute env net now a g b).calls
      = [loginRequest env em pw,
         imlFetchRequest
           ⟨some t, loginIndexOf ((net (loginRequest env em pw)).json.getD .null), now⟩
           "v3/me/games/savescore" "POST" (some (savescorePayload gid b))] := by
  have hlogin := imlAdminLogin_success env net now a em pw t he he' hp hp' hok htok ht
  simp only [savescoreRoute, hno, Bool.false_eq_true, if_false, hlogin, hgid, hgt, imlFetch]
  split <;> rfl

theorem savescore_held_calls (env : Env) (net : Net) (now : Nat) (a : Auth)
    (g : String) (b : Json)
    (hheld : jsTruthyOpt a.jwtTokenForSPA = true) :
    (savescoreRoute env net now a g b).calls = []
    ∨ ∃ gid, (savescoreRoute env net now a g b).calls
        = [imlFetchRequest a "v3/me/games/savescore" "POST" (some (savescorePayload gid b))] := by
  cases hg : jsToNumberFinite g with
  | none =>
    left
    rw [savescore_held_invalidGameId env net now a g b hheld hg]
  | some gid =>
    cases hb : b.getField "gameType" with
    | none =>
      left
      simp [savescoreRoute, hheld, hg, hb]
    | some gt =>
      right
      refine ⟨gid, ?_⟩
      simp only [savescoreRoute, hheld, if_true, hg, hb, imlFetch]
      split <;> simp

/-- The savescore endpoint request is not a login call. -/
theorem savescore_req_not_login (a : Auth) (body : Option Json) :
    isLoginCall (imlFetchRequest a "v3/me/games/savescore" "POST" body) = false := rfl

/-- C3: for every score-submission request arriving with no Session held
(and succeeding reactive login and locally valid inputs), the route issues
exactly one login call, before the score-submission call; and when a Session
is already held, no login call is issued at all. -/
theorem c3_reactive_login :
    (∀ (env : Env) (net : Net) (now : Nat) (a : Auth) (em pw : String) (t : Json)
        (g : String) (b : Json) (gid : ℚ) (gt : Json),
      jsTruthyOpt a.jwtTokenForSPA = false →
      env.IML_EMAIL = some em → em ≠ "" →
      env.IML_PASSWORD = some pw → pw ≠ "" →
      (net (loginRequest env em pw)).isOk = true →
      ((net (loginRequest env em pw)).json.getD .null).getField "jwtTokenForSPA" = some t →
      jsFalsy t = false →
      jsToNumberFinite g = some gid →
      b.getField "gameType" = some gt →
      ∃ r, (savescoreRoute env net now a g b).calls = [loginRequest env em pw, r]
        ∧ r.url = IML_BASE ++ "v3/me/games/savescore"
        ∧ isLoginCall (loginRequest env em pw) = true
        ∧ isLoginCall r = false
        ∧ (savescoreRoute env net now a g b).calls.countP isLoginCall = 1)
    ∧ (∀ (env : Env) (net : Net) (now : Nat) (a : Auth) (g : String) (b : Json),
      jsTruthyOpt a.jwtTokenForSPA = true →
      (savescoreRoute env net now a g b).calls.countP isLoginCall = 0) := by
  constructor
  · intro env net now a em pw t g b gid gt hno he he' hp hp' hok htok ht hgid hgt
    have hc := savescore_noSession_calls env net now a em pw t g b gid gt
      hno he he' hp hp' hok htok ht hgid hgt
    have h1 : isLoginCall (loginRequest env em pw) = true := by
      simp [isLoginCall, loginRequest]
    have h2 := savescore_req_not_login
      ⟨some t, loginIndexOf ((net (loginRequest env em pw)).json.getD .null), now⟩
      (some (savescorePayload gid b))
    refine ⟨_, hc, rfl, h1, h2, ?_⟩
    rw [hc]
    simp [List.countP_cons, List.countP_nil, h1, h2]
  · intro env net now a g b hheld
    rcases savescore_held_calls env net now a g b hheld with h | ⟨gid, h⟩
    · simp [h]
    · rw [h]
      simp [List.countP_cons, List.countP_nil, savescore_req_not_login]

/-- C3 witness: both conjuncts applied at concrete inputs — no prior Session
with a succeeding login against `netOK`, and a held Session `authT0`. -/
theorem c3_witness :
    (∃ r, (savescoreRoute envFull netOK 2 initialAuth "7"
        (Json.obj [("gameType", Json.num 1)])).calls
          = [loginRequest envFull "admin@example.edu" "pw", r]
      ∧ r.url = IML_BASE ++ "v3/me/games/savescore"
      ∧ isLoginCall (loginRequest envFull "admin@example.edu" "pw") = true
      ∧ isLoginCall r = false
      ∧ (savescoreRoute envFull netOK 2 initialAuth "7"
          (Json.obj [("gameType", Json.num 1)])).calls.countP isLoginCall = 1)
    ∧ (savescoreRoute envFull netOK 2 authT0 "7"
        (Json.obj [("gameType", Json.num 1)])).calls.countP isLoginCall = 0 :=
  ⟨c3_reactive_login.1 envFull netOK 2 initialAuth "admin@example.edu" "pw" (Json.str "T1")
      "7" (Json.obj [("gameType", Json.num 1)]) (((7 : ℕ) : ℚ) * (10 : ℚ) ^ (0 : ℤ)) (Json.num 1)
      rfl rfl (by decide) rfl (by decide) rfl rfl rfl rfl rfl,
   c3_reactive_login.2 envFull netOK 2 authT0 "7" (Json.obj [("gameType", Json.num 1)]) rfl⟩

/-! ## Claim C4 -/

/-- C4, counterexample: when the network-identifier configuration value is
unset, a games-listing request with `start` missing returns local status 500
(the configuration read precedes the `start`/`end` check), not 400 — so the
claim's universal "returns local status 400" is false. -/
theorem c4_counterexample :
    (gamesRoute envNoNetwork netOK initialAuth none (some "2024-01-01")).status = 500
    ∧ ¬ (gamesRoute envNoNetwork netOK initialAuth none (some "2024-01-01")).status = 400 :=
  ⟨rfl, by decide⟩

/-- C4 (amended): **provided the network-identifier configuration value is
present and non-empty**, every games-listing request with the `start` query
parameter missing or the `end` query parameter missing returns local status
400 without issuing any outbound call (and leaves the Session unchanged). -/
theorem c4_missing_start_end (env : Env) (net : Net) (a : Auth)
    (st en : Option String) (nid : String)
    (hn : env.IML_NETWORK_ID = some nid) (hn' : nid ≠ "")
    (hmiss : st = none ∨ en = none) :
    (gamesRoute env net a st en).status = 400
    ∧ (gamesRoute env net a st en).body = missingStartEndBody
    ∧ (gamesRoute env net a st en).calls = []
    ∧ (gamesRoute env net a st en).auth = a := by
  rcases hmiss with h | h
  · subst h; cases en <;> simp [gamesRoute, hn, mustEnv, hn']
  · subst h; cases st <;> simp [gamesRoute, hn, mustEnv, hn']

/-- C4 witness: the amended theorem applied with full configuration and a
request missing `start`. -/
theorem c4_witness :
    (gamesRoute envFull netOK authT0 none (some "2024-01-02")).status = 400
    ∧ (gamesRoute envFull netOK authT0 none (some "2024-01-02")).body = missingStartEndBody
    ∧ (gamesRoute envFull netOK authT0 none (some "2024-01-02")).calls = []
    ∧ (gamesRoute envFull netOK authT0 none (some "2024-01-02")).auth = authT0 :=
  c4_missing_start_end envFull netOK authT0 none (some "2024-01-02") "N1"
    rfl (by decide) (Or.inl rfl)

/-! ## Claim C5 -/

theorem strAppend_empty (s : String) : s ++ "" = s :=
  strExt (by simp [strData_append])

theorem containsSub_mid (a sub b : String) : containsSub (a ++ sub ++ b) sub :=
  ⟨a, b, rfl⟩

/-- The upstream-error message `imlFetch` builds. -/
theorem upstreamMsg_facts (path : String) (r : Response) :
    containsSub
        ("IMLeagues API error (" ++ toString r.status ++ ") on " ++ path ++ ": " ++ r.text)
        (toString r.status)
    ∧ containsSub
        ("IMLeagues API error (" ++ toString r.status ++ ") on " ++ path ++ ": " ++ r.text)
        r.text
    ∧ ("IMLeagues API error (" ++ toString r.status ++ ") on " ++ path ++ ": " ++ r.text) ≠ "" := by
  refine ⟨?_, ?_, ?_⟩
  · have he : "IMLeagues API error (" ++ toString r.status ++ ") on " ++ path ++ ": " ++ r.text
        = "IMLeagues API error (" ++ toString r.status ++ (") on " ++ path ++ (": " ++ r.text)) := by
      simp [strAppend_assoc]
    rw [he]
    exact containsSub_mid _ _ _
  · have he : "IMLeagues API error (" ++ toString r.status ++ ") on " ++ path ++ ": " ++ r.text
        = ("IMLeagues API error (" ++ toString r.status ++ ") on " ++ path ++ ": ") ++ r.text ++ "" := by
      simp [strAppend_assoc, strAppend_empty]
    rw [he]
    exact containsSub_mid _ _ _
  · apply strNeEmpty_of_data
    simp [strData_append]

theorem imlFetchResult_badStatus (path : String) (r : Response) (h : r.isOk = false) :
    imlFetchResult path r =
      .error
        ⟨"IMLeagues API error (" ++ toString r.status ++ ") on " ++ path ++ ": " ++ r.text,
         some r.status,
         some (if (imlFetchJson r).isNull then .str r.text else imlFetchJson r)⟩ := by
  simp [imlFetchResult, h]

/-- Shared final step: errBody of an upstream error yields the `upstream500`
shape. -/
theorem upstream500_errBody (path : String) (r : Response) (calls : List Request) (a : Auth) :
    upstream500
      ⟨calls, 500,
       errBody
         ⟨"IMLeagues API error (" ++ toString r.status ++ ") on " ++ path ++ ": " ++ r.text,
          some r.status,
          some (if (imlFetchJson r).isNull then .str r.text else imlFetchJson r)⟩,
       a⟩ r := by
  obtain ⟨h1, h2, h3⟩ := upstreamMsg_facts path r
  refine ⟨rfl, _, ?_, h1, h2⟩
  simp [errBody, errString, h3]

/-- C5: for every forwarded call whose external response has a non-success
HTTP status, the route handler (games listing, team roster, and score
submission alike) returns local status 500 with a body
`{ ok: false, error: msg }` whose message contains the external status code
and the raw response body. -/
theorem c5_upstream_error_surfaced :
    (∀ (env : Env) (net : Net) (a : Auth) (nid st en : String),
      env.IML_NETWORK_ID = some nid → nid ≠ "" → st ≠ "" → en ≠ "" →
      (net (imlFetchRequest a (gamesApiPath nid st en) "GET" none)).isOk = false →
      upstream500 (gamesRoute env net a (some st) (some en))
        (net (imlFetchRequest a (gamesApiPath nid st en) "GET" none)))
    ∧ (∀ (net : Net) (a : Auth) (tid : String),
      (net (imlFetchRequest a (teamsApiPath tid) "GET" none)).isOk = false →
      upstream500 (teamsRoute net a tid)
        (net (imlFetchRequest a (teamsApiPath tid) "GET" none)))
    ∧ (∀ (env : Env) (net : Net) (now : Nat) (a : Auth) (g : String) (b : Json) (gid : ℚ)
        (gt : Json),
      jsTruthyOpt a.jwtTokenForSPA = true →
      jsToNumberFinite g = some gid →
      b.getField "gameType" = some gt →
      (net (imlFetchRequest a "v3/me/games/savescore" "POST"
          (some (savescorePayload gid b)))).isOk = false →
      upstream500 (savescoreRoute env net now a g b)
        (net (imlFetchRequest a "v3/me/games/savescore" "POST"
          (some (savescorePayload gid b))))) := by
  refine ⟨?_, ?_, ?_⟩
  · intro env net a nid st en hn hn' hst hen hbad
    have hout : gamesRoute env net a (some st) (some en) =
        ⟨[imlFetchRequest a (gamesApiPath nid st en) "GET" none], 500,
         errBody
           ⟨"IMLeagues API error ("
               ++ toString (net (imlFetchRequest a (gamesApiPath nid st en) "GET" none)).status
               ++ ") on " ++ gamesApiPath nid st en ++ ": "
               ++ (net (imlFetchRequest a (gamesApiPath nid st en) "GET" none)).text,
            some (net (imlFetchRequest a (gamesApiPath nid st en) "GET" none)).status,
            some (if (imlFetchJson
                  (net (imlFetchRequest a (gamesApiPath nid st en) "GET" none))).isNull
              then .str (net (imlFetchRequest a (gamesApiPath nid st en) "GET" none)).text
              else imlFetchJson
                (net (imlFetchRequest a (gamesApiPath nid st en) "GET" none)))⟩,
         a⟩ := by
      simp [gamesRoute, hn, mustEnv, hn', hst, hen, imlFetch,
        imlFetchResult_badStatus _ _ hbad]
    rw [hout]
    exact upstream500_errBody _ _ _ _
  · intro net a tid hbad
    have hout : teamsRoute net a tid =
        ⟨[imlFetchRequest a (teamsApiPath tid) "GET" none], 500,
         errBody
           ⟨"IMLeagues API error ("
               ++ toString (net (imlFetchRequest a (teamsApiPath tid) "GET" none)).status
               ++ ") on " ++ teamsApiPath tid ++ ": "
               ++ (net (imlFetchRequest a (teamsApiPath tid) "GET" none)).text,
            some (net (imlFetchRequest a (teamsApiPath tid) "GET" none)).status,
            some (if (imlFetchJson (net (imlFetchRequest a (teamsApiPath tid) "GET" none))).isNull
              then .str (net (imlFetchRequest a (teamsApiPath tid) "GET" none)).text
              else imlFetchJson (net (imlFetchRequest a (teamsApiPath tid) "GET" none)))⟩,
         a⟩ := by
      simp [teamsRoute, imlFetch, imlFetchResult_badStatus _ _ hbad]
    rw [hout]
    exact upstream500_errBody _ _ _ _
  · intro env net now a g b gid gt hheld hgid hgt hbad
    have hout : savescoreRoute env net now a g b =
        ⟨[imlFetchRequest a "v3/me/games/savescore" "POST" (some (savescorePayload gid b))], 500,
         errBody
           ⟨"IMLeagues API error ("
               ++ toString (net (imlFetchRequest a "v3/me/games/savescore" "POST"
                   (some (savescorePayload gid b)))).status
               ++ ") on " ++ "v3/me/games/savescore" ++ ": "
               ++ (net (imlFetchRequest a "v3/me/games/savescore" "POST"
                   (some (savescorePayload gid b)))).text,
            some (net (imlFetchRequest a "v3/me/games/savescore" "POST"
                (some (savescorePayload gid b)))).status,
            some (if (imlFetchJson (net (imlFetchRequest a "v3/me/games/savescore" "POST"
                  (some (savescorePayload gid b))))).isNull
              then .str (net (imlFetchRequest a "v3/me/games/savescore" "POST"
                  (some (savescorePayload gid b)))).text
              else imlFetchJson (net (imlFetchRequest a "v3/me/games/savescore" "POST"
                  (some (savescorePayload gid b)))))⟩,
         a⟩ := by
      simp [savescoreRoute, hheld, hgid, hgt, imlFetch, imlFetchResult_badStatus _ _ hbad]
    rw [hout]
    exact upstream500_errBody _ _ _ _

/-- C5 witness: all three conjuncts applied against `netDown` (every endpoint
answers 502 with body `Bad Gateway`). -/
theorem c5_witness :
    upstream500 (gamesRoute envFull netDown authT0 (some "2024-01-01") (some "2024-02-01"))
      (netDown (imlFetchRequest authT0 (gamesApiPath "N1" "2024-01-01" "2024-02-01") "GET" none))
    ∧ upstream500 (teamsRoute netDown authT0 "team9")
      (netDown (imlFetchRequest authT0 (teamsApiPath "team9") "GET" none))
    ∧ upstream500 (savescoreRoute envFull netDown 4 authT0 "7" (Json.obj [("gameType", Json.num 1)]))
      (netDown (imlFetchRequest authT0 "v3/me/games/savescore" "POST"
        (some (savescorePayload (((7 : ℕ) : ℚ) * (10 : ℚ) ^ (0 : ℤ))
          (Json.obj [("gameType", Json.num 1)]))))) :=
  ⟨c5_upstream_error_surfaced.1 envFull netDown authT0 "N1" "2024-01-01" "2024-02-01"
      rfl (by decide) (by decide) (by decide) rfl,
   c5_upstream_error_surfaced.2.1 netDown authT0 "team9" rfl,
   c5_upstream_error_surfaced.2.2 envFull netDown 4 authT0 "7"
      (Json.obj [("gameType", Json.num 1)]) (((7 : ℕ) : ℚ) * (10 : ℚ) ^ (0 : ℤ)) (Json.num 1)
      rfl rfl rfl rfl⟩

/-! ## Claim C6 -/

/-- C6: with valid credentials configured and the external login endpoint
returning `{jwtTokenForSPA: "T1"}` (no secondary token), `POST /api/iml/login`
replies `{ok: true, jwtTokenIndexForSPA: null}`, every subsequent outbound
call carries the header `Authorization: Bearer T1`, and with no Session held
the auth-header function returns an empty header set. -/
theorem c6_login_bearer_flow (env : Env) (net : Net) (now : Nat) (a₀ : Auth)
    (em pw : String)
    (he : env.IML_EMAIL = some em) (he' : em ≠ "")
    (hp : env.IML_PASSWORD = some pw) (hp' : pw ≠ "")
    (hok : (net (loginRequest env em pw)).isOk = true)
    (hjson : (net (loginRequest env em pw)).json = some loginOkJson) :
    (loginRoute env net now a₀).status = 200
    ∧ (loginRoute env net now a₀).body
        = .obj [("ok", .bool true), ("jwtTokenIndexForSPA", .null)]
    ∧ (loginRoute env net now a₀).auth.jwtTokenForSPA = some (.str "T1")
    ∧ (∀ (path method : String) (body : Option Json),
        ("Authorization", "Bearer T1")
          ∈ (imlFetch net (loginRoute env net now a₀).auth path method body).request.headers)
    ∧ (∀ a : Auth, a.jwtTokenForSPA = none → imlAuthHeaders a = []) := by
  have htok : ((net (loginRequest env em pw)).json.getD .null).getField "jwtTokenForSPA"
      = some (.str "T1") := by
    rw [hjson]; rfl
  have hlogin := imlAdminLogin_success env net now a₀ em pw (.str "T1")
    he he' hp hp' hok htok rfl
  have hidx : loginIndexOf ((net (loginRequest env em pw)).json.getD .null) = none := by
    rw [hjson]; rfl
  have hroute : loginRoute env net now a₀ =
      ⟨[loginRequest env em pw], 200,
       .obj [("ok", .bool true), ("jwtTokenIndexForSPA", .null)],
       ⟨some (.str "T1"), none, now⟩⟩ := by
    simp [loginRoute, hlogin, hidx, nullishGetD]
  rw [hroute]
  refine ⟨rfl, rfl, rfl, ?_, ?_⟩
  · intro path method body
    have hh : imlAuthHeaders ⟨some (.str "T1"), none, now⟩
        = [("Authorization", "Bearer T1")] := by
      simp [imlAuthHeaders, jsFalsy, jsToString]
    simp [imlFetch, imlFetchRequest, hh]
  · intro a ha
    simp [imlAuthHeaders, ha]

/-- C6 witness: the theorem applied at `envFull`, `netOK` (login returns
`{jwtTokenForSPA: "T1"}`), from the empty initial session. -/
theorem c6_witness :
    (loginRoute envFull netOK 9 initialAuth).status = 200
    ∧ (loginRoute envFull netOK 9 initialAuth).body
        = .obj [("ok", .bool true), ("jwtTokenIndexForSPA", .null)]
    ∧ (loginRoute envFull netOK 9 initialAuth).auth.jwtTokenForSPA = some (.str "T1")
    ∧ (∀ (path method : String) (body : Option Json),
        ("Authorization", "Bearer T1")
          ∈ (imlFetch netOK (loginRoute envFull netOK 9 initialAuth).auth
              path method body).request.headers)
    ∧ (∀ a : Auth, a.jwtTokenForSPA = none → imlAuthHeaders a = []) :=
  c6_login_bearer_flow envFull netOK 9 initialAuth "admin@example.edu" "pw"
    rfl (by decide) rfl (by decide) rfl rfl

/-! ## Claim C7 -/

/-- C7, counterexample: on a success response whose body is the literal text
`null`, JSON parsing succeeds (producing JSON `null`), yet `forward` returns
the raw text `"null"` rather than the parsed value — `json ?? text` also falls
back when the parsed value is `null`, not only "when parsing fails". -/
theorem c7_counterexample :
    (netNullBody (imlFetchRequest authT0 "p" "GET" none)).json = some Json.null
    ∧ (netNullBody (imlFetchRequest authT0 "p" "GET" none)).isOk = true
    ∧ (imlFetch netNullBody authT0 "p" "GET" none).result = .ok (.str "null")
    ∧ Json.str "null" ≠ Json.null :=
  ⟨rfl, rfl, rfl, fun h => Json.noConfusion h⟩

/-- C7 (amended): for every `forward(path, method, body)` call whose body,
when present, is truthy (as at every call site of this program): the
`Content-Type: application/json` header is attached iff a body is present
(and the body is then JSON-serialized), the current auth header is merged in,
and on a successful HTTP status the result is the JSON-parsed response text —
falling back to the raw text when parsing fails, when the response text is
empty, or when the parsed value is JSON `null`. -/
theorem c7_forward_contract (net : Net) (a : Auth) (path method : String) (body : Option Json)
    (hbody : body = none ∨ ∃ v, body = some v ∧ jsFalsy v = false) :
    ((∀ v, body = some v →
        (imlFetchRequest a path method body).body = some (jsonStringify v)
        ∧ ("Content-Type", "application/json") ∈ (imlFetchRequest a path method body).headers)
    ∧ (body = none →
        (imlFetchRequest a path method body).body = none
        ∧ ("Content-Type", "application/json") ∉ (imlFetchRequest a path method body).headers))
    ∧ (∀ h ∈ imlAuthHeaders a, h ∈ (imlFetchRequest a path method body).headers)
    ∧ ((net (imlFetchRequest a path method body)).isOk = true →
        ((∀ v, (net (imlFetchRequest a path method body)).json = some v →
            v.isNull = false → (net (imlFetchRequest a path method body)).text ≠ "" →
            (imlFetch net a path method body).result = .ok v)
        ∧ ((net (imlFetchRequest a path method body)).json = none →
            (imlFetch net a path method body).result
              = .ok (.str (net (imlFetchRequest a path method body)).text))
        ∧ ((net (imlFetchRequest a path method body)).text = "" →
            (imlFetch net a path method body).result
              = .ok (.str (net (imlFetchRequest a path method body)).text))
        ∧ ((net (imlFetchRequest a path method body)).json = some Json.null →
            (imlFetch net a path method body).result
              = .ok (.str (net (imlFetchRequest a path method body)).text)))) := by
  refine ⟨⟨?_, ?_⟩, ?_, ?_⟩
  · intro v hv
    have hfal : jsFalsy v = false := by
      rcases hbody with h | ⟨w, hw, hf⟩
      · rw [hv] at h; exact absurd h (by simp)
      · rw [hv] at hw; injection hw with hw'; exact hw' ▸ hf
    subst hv
    constructor
    · simp [imlFetchRequest, hfal]
    · simp [imlFetchRequest, jsTruthyOpt, hfal]
  · intro hv
    subst hv
    constructor
    · simp [imlFetchRequest]
    · simp only [imlFetchRequest, jsTruthyOpt]
      intro hmem
      simp only [Bool.false_eq_true, if_false, List.nil_append] at hmem
      rcases ht : a.jwtTokenForSPA with _ | t <;> simp [imlAuthHeaders, ht] at hmem
  · intro h hm
    simp only [imlFetchRequest]
    exact List.mem_append_right _ hm
  · intro hok
    refine ⟨?_, ?_, ?_, ?_⟩
    · intro v hj hnull htext
      simp [imlFetch, imlFetchResult, imlFetchJson, hok, hj, hnull, htext]
    · intro hj
      by_cases htext : (net (imlFetchRequest a path method body)).text = "" <;>
        simp [imlFetch, imlFetchResult, imlFetchJson, hok, hj, htext, Json.isNull]
    · intro htext
      simp [imlFetch, imlFetchResult, imlFetchJson, hok, htext, Json.isNull]
    · intro hj
      by_cases htext : (net (imlFetchRequest a path method body)).text = "" <;>
        simp [imlFetch, imlFetchResult, imlFetchJson, hok, hj, htext, Json.isNull]

/-- C7 witness: the amended contract applied to a body-less GET against
`netOK`. -/
theorem c7_witness :
    ((∀ v, (none : Option Json) = some v →
        (imlFetchRequest authT0 "p" "GET" none).body = some (jsonStringify v)
        ∧ ("Content-Type", "application/json") ∈ (imlFetchRequest authT0 "p" "GET" none).headers)
    ∧ ((none : Option Json) = none →
        (imlFetchRequest authT0 "p" "GET" none).body = none
        ∧ ("Content-Type", "application/json") ∉ (imlFetchRequest authT0 "p" "GET" none).headers))
    ∧ (∀ h ∈ imlAuthHeaders authT0, h ∈ (imlFetchRequest authT0 "p" "GET" none).headers)
    ∧ ((netOK (imlFetchRequest authT0 "p" "GET" none)).isOk = true →
        ((∀ v, (netOK (imlFetchRequest authT0 "p" "GET" none)).json = some v →
            v.isNull = false → (netOK (imlFetchRequest authT0 "p" "GET" none)).text ≠ "" →
            (imlFetch netOK authT0 "p" "GET" none).result = .ok v)
        ∧ ((netOK (imlFetchRequest authT0 "p" "GET" none)).json = none →
            (imlFetch netOK authT0 "p" "GET" none).result
              = .ok (.str (netOK (imlFetchRequest authT0 "p" "GET" none)).text))
        ∧ ((netOK (imlFetchRequest authT0 "p" "GET" none)).text = "" →
            (imlFetch netOK authT0 "p" "GET" none).result
              = .ok (.str (netOK (imlFetchRequest authT0 "p" "GET" none)).text))
        ∧ ((netOK (imlFetchRequest authT0 "p" "GET" none)).json = some Json.null →
            (imlFetch netOK authT0 "p" "GET" none).result
              = .ok (.str (netOK (imlFetchRequest authT0 "p" "GET" none)).text)))) :=
  c7_forward_contract netOK authT0 "p" "GET" none (Or.inl rfl)

/-! ## Claim C8 -/

theorem mustEnv_ok_iff {name : String} {v : Option String} {s : String} :
    mustEnv name v = .ok s ↔ v = some s ∧ s ≠ "" := by
  cases v with
  | none => simp [mustEnv]
  | some x =>
    by_cases hx : x = ""
    · subst hx
      constructor
      · intro h
        exact absurd h (by simp [mustEnv])
      · intro ⟨h1, h2⟩
        injection h1 with h1'
        exact absurd h1'.symm h2
    · constructor
      · intro h
        simp only [mustEnv, hx, if_false] at h
        injection h with h'
        subst h'
        exact ⟨rfl, hx⟩
      · intro ⟨h1, h2⟩
        injection h1 with h1'
        subst h1'
        simp [mustEnv, hx]

theorem gamesRoute_auth (env : Env) (net : Net) (a : Auth) (st en : Option String) :
    (gamesRoute env net a st en).auth = a := by
  cases hm : mustEnv "IML_NETWORK_ID" env.IML_NETWORK_ID with
  | error e => simp [gamesRoute, hm]
  | ok nid =>
    cases st with
    | none => cases en <;> simp [gamesRoute, hm]
    | some s =>
      cases en with
      | none => simp [gamesRoute, hm]
      | some e2 =>
        by_cases hse : s = "" ∨ e2 = ""
        · rcases hse with h | h <;> simp [gamesRoute, hm, h]
        · push_neg at hse
          cases h2 : (imlFetch net a (gamesApiPath nid s e2) "GET" none).result <;>
            simp [gamesRoute, hm, hse.1, hse.2, h2]

theorem teamsRoute_auth (net : Net) (a : Auth) (tid : String) :
    (teamsRoute net a tid).auth = a := by
  cases h : (imlFetch net a (teamsApiPath tid) "GET" none).result <;>
    simp [teamsRoute, h]

theorem loginRoute_auth (env : Env) (net : Net) (now : Nat) (a : Auth) :
    (loginRoute env net now a).auth = (imlAdminLogin env net now a).auth := by
  cases h : (imlAdminLogin env net now a).result <;> simp [loginRoute, h]

theorem imlAdminLogin_auth_cases (env : Env) (net : Net) (now : Nat) (a : Auth) :
    (imlAdminLogin env net now a).auth = a
    ∨ ∃ t, (imlAdminLogin env net now a).auth.jwtTokenForSPA = some t
        ∧ jsFalsy t = false
        ∧ (imlAdminLogin env net now a).auth.loggedInAt = now := by
  cases he : mustEnv "IML_EMAIL" env.IML_EMAIL with
  | error e => left; simp [imlAdminLogin, he]
  | ok em =>
    cases hp : mustEnv "IML_PASSWORD" env.IML_PASSWORD with
    | error e => left; simp [imlAdminLogin, he, hp]
    | ok pw =>
      obtain ⟨he', hene⟩ := mustEnv_ok_iff.mp he
      obtain ⟨hp', hpne⟩ := mustEnv_ok_iff.mp hp
      by_cases hok : (net (loginRequest env em pw)).isOk = true
      · cases htok : ((net (loginRequest env em pw)).json.getD .null).getField "jwtTokenForSPA" with
        | none =>
          have hno : jsTruthyOpt
              (((net (loginRequest env em pw)).json.getD .null).getField "jwtTokenForSPA")
                = false := by
            rw [htok]; rfl
          left
          rw [imlAdminLogin_noToken env net now a em pw he' hene hp' hpne hok hno]
        | some tok =>
          by_cases hf : jsFalsy tok = false
          · right
            rw [imlAdminLogin_success env net now a em pw tok he' hene hp' hpne hok htok hf]
            exact ⟨tok, rfl, hf, rfl⟩
          · have hf' : jsFalsy tok = true := by simpa using hf
            have hno : jsTruthyOpt
                (((net (loginRequest env em pw)).json.getD .null).getField "jwtTokenForSPA")
                  = false := by
              rw [htok]; simp [jsTruthyOpt, hf']
            left
            rw [imlAdminLogin_noToken env net now a em pw he' hene hp' hpne hok hno]
      · have hbad : (net (loginRequest env em pw)).isOk = false := by simpa using hok
        left
        rw [imlAdminLogin_badStatus env net now a em pw he' hene hp' hpne hbad]

theorem savescoreRoute_auth_cases (env : Env) (net : Net) (now : Nat) (a : Auth)
    (g : String) (b : Json) :
    (savescoreRoute env net now a g b).auth = a
    ∨ (savescoreRoute env net now a g b).auth = (imlAdminLogin env net now a).auth := by
  by_cases hheld : jsTruthyOpt a.jwtTokenForSPA = true
  · left
    cases hg : jsToNumberFinite g with
    | none => rw [savescore_held_invalidGameId env net now a g b hheld hg]
    | some gid =>
      cases hb : b.getField "gameType" with
      | none => simp [savescoreRoute, hheld, hg, hb]
      | some gt =>
        cases h2 : (imlFetch net a "v3/me/games/savescore" "POST"
            (some (savescorePayload gid b))).result <;>
          simp [savescoreRoute, hheld, hg, hb, h2]
  · have h' : jsTruthyOpt a.jwtTokenForSPA = false := by simpa using hheld
    right
    cases hres : (imlAdminLogin env net now a).result with
    | error e => simp [savescoreRoute, h', hres]
    | ok u =>
      cases hg : jsToNumberFinite g with
      | none => simp [savescoreRoute, h', hres, hg]
      | some gid =>
        cases hb : b.getField "gameType" with
        | none => simp [savescoreRoute, h', hres, hg, hb]
        | some gt =>
          cases h2 : (imlFetch net (imlAdminLogin env net now a).auth "v3/me/games/savescore"
              "POST" (some (savescorePayload gid b))).result <;>
            simp [savescoreRoute, h', hres, hg, hb, h2]

/-- C8: in every reachable process state the single Session record is either
fully absent (no token, no index token, zero timestamp) or fully present
(truthy primary token with a positive acquisition time); and a successful
login replaces the record wholesale with the returned token and the current
timestamp. -/
theorem c8_session_states :
    (∀ (env : Env) (a : Auth), Reachable env a → SessionAbsent a ∨ SessionPresent a)
    ∧ (∀ (env : Env) (net : Net) (now : Nat) (a a' : Auth),
        (imlAdminLogin env net now a).result = .ok a' →
        (imlAdminLogin env net now a).auth = a'
        ∧ ∃ t, a'.jwtTokenForSPA = some t ∧ jsFalsy t = false ∧ a'.loggedInAt = now) := by
  constructor
  · intro env a h
    induction h with
    | init => left; exact ⟨rfl, rfl, rfl⟩
    | loginStep net now a h hnow ih =>
      rcases imlAdminLogin_auth_cases env net now a with he | ⟨t, ht, hf, hl⟩
      · rw [he]; exact ih
      · right; exact ⟨⟨t, ht, hf⟩, by rw [hl]; exact hnow⟩
    | loginRouteStep net now a h hnow ih =>
      rw [loginRoute_auth]
      rcases imlAdminLogin_auth_cases env net now a with he | ⟨t, ht, hf, hl⟩
      · rw [he]; exact ih
      · right; exact ⟨⟨t, ht, hf⟩, by rw [hl]; exact hnow⟩
    | gamesStep net a st en h ih => rw [gamesRoute_auth]; exact ih
    | teamsStep net a tid h ih => rw [teamsRoute_auth]; exact ih
    | savescoreStep net now a g b h hnow ih =>
      rcases savescoreRoute_auth_cases env net now a g b with he | he
      · rw [he]; exact ih
      · rw [he]
        rcases imlAdminLogin_auth_cases env net now a with h2 | ⟨t, ht, hf, hl⟩
        · rw [h2]; exact ih
        · right; exact ⟨⟨t, ht, hf⟩, by rw [hl]; exact hnow⟩
  · intro env net now a a'
    cases he : mustEnv "IML_EMAIL" env.IML_EMAIL with
    | error e => intro hres; simp [imlAdminLogin, he] at hres
    | ok em =>
      cases hp : mustEnv "IML_PASSWORD" env.IML_PASSWORD with
      | error e => intro hres; simp [imlAdminLogin, he, hp] at hres
      | ok pw =>
        obtain ⟨he', hene⟩ := mustEnv_ok_iff.mp he
        obtain ⟨hp', hpne⟩ := mustEnv_ok_iff.mp hp
        by_cases hok : (net (loginRequest env em pw)).isOk = true
        · cases htok : ((net (loginRequest env em pw)).json.getD .null).getField
              "jwtTokenForSPA" with
          | none =>
            have hno : jsTruthyOpt
                (((net (loginRequest env em pw)).json.getD .null).getField "jwtTokenForSPA")
                  = false := by
              rw [htok]; rfl
            rw [imlAdminLogin_noToken env net now a em pw he' hene hp' hpne hok hno]
            intro hres
            exact absurd hres (by simp)
          | some tok =>
            by_cases hf : jsFalsy tok = false
            · rw [imlAdminLogin_success env net now a em pw tok he' hene hp' hpne hok htok hf]
              intro hres
              injection hres with hres'
              subst hres'
              exact ⟨rfl, tok, rfl, hf, rfl⟩
            · have hf' : jsFalsy tok = true := by simpa using hf
              have hno : jsTruthyOpt
                  (((net (loginRequest env em pw)).json.getD .null).getField "jwtTokenForSPA")
                    = false := by
                rw [htok]; simp [jsTruthyOpt, hf']
              rw [imlAdminLogin_noToken env net now a em pw he' hene hp' hpne hok hno]
              intro hres
              exact absurd hres (by simp)
        · have hbad : (net (loginRequest env em pw)).isOk = false := by simpa using hok
          rw [imlAdminLogin_badStatus env net now a em pw he' hene hp' hpne hbad]
          intro hres
          exact absurd hres (by simp)

/-- C8 witness: the invariant at the initial (reachable) state, and the
wholesale replacement for a concrete successful login. -/
theorem c8_witness :
    (SessionAbsent initialAuth ∨ SessionPresent initialAuth)
    ∧ ((imlAdminLogin envFull netOK 3 initialAuth).auth = authT1At3
       ∧ ∃ t, authT1At3.jwtTokenForSPA = some t ∧ jsFalsy t = false
           ∧ authT1At3.loggedInAt = 3) :=
  ⟨c8_session_states.1 envFull initialAuth Reachable.init,
   c8_session_states.2 envFull netOK 3 initialAuth authT1At3 rfl⟩

/-! ## Claim C9 -/

theorem strHead_append {a : String} (b : String) {c : Char}
    (h : a.data.head? = some c) : (a ++ b).data.head? = some c := by
  cases ha : a.data with
  | nil => rw [ha] at h; exact absurd h (by simp)
  | cons x t =>
    rw [ha] at h
    injection h with h'
    subst h'
    show (a.data ++ b.data).head? = some x
    rw [ha]
    rfl

theorem str_ne_of_head {x y : String} {c d : Char} (hx : x.data.head? = some c)
    (hy : y.data.head? = some d) (h : c ≠ d) : x ≠ y := by
  intro he
  rw [he] at hx
  rw [hx] at hy
  injection hy with h'
  exact h h'

theorem imlFetchUrl_rel (path : String) {c : Char} (hc : path.data.head? = some c)
    (hh : c ≠ 'h') (hs : c ≠ '/') : imlFetchUrl path = IML_BASE ++ path := by
  have h1 : strHasPre "http" path = false := by
    cases hp : path.data with
    | nil => rw [hp] at hc; exact absurd hc (by simp)
    | cons x t =>
      rw [hp] at hc
      injection hc with hc'
      subst hc'
      have hd : strHasPre "http" path = (['h','t','t','p'] : List Char).isPrefixOf path.data :=
        rfl
      have hx : ('h' == x) = false := by
        simpa using fun h2 => hh h2.symm
      rw [hd, hp]
      simp [List.isPrefixOf, hx]
  have h2 : stripLeadSlash path = path := by
    unfold stripLeadSlash
    split
    · next r heq =>
      rw [heq] at hc
      injection hc with hc'
      exact absurd hc'.symm hs
    · rfl
  simp [imlFetchUrl, h1, h2]

theorem imlFetch_request (net : Net) (a : Auth) (path method : String) (body : Option Json) :
    (imlFetch net a path method body).request = imlFetchRequest a path method body := rfl

theorem games_req_not_login (a : Auth) (nid s e2 : String) :
    isLoginCall (imlFetchRequest a (gamesApiPath nid s e2) "GET" none) = false := by
  have hhead : (gamesApiPath nid s e2).data.head? = some 'n' :=
    strHead_append _ (strHead_append _ (strHead_append _ (strHead_append _ rfl)))
  have hurl : imlFetchUrl (gamesApiPath nid s e2) = IML_BASE ++ gamesApiPath nid s e2 :=
    imlFetchUrl_rel _ hhead (by decide) (by decide)
  have hy : ("admin/account/login" : String).data.head? = some 'a' := rfl
  simp only [isLoginCall, imlFetchRequest, hurl, decide_eq_false_iff_not]
  intro he
  exact str_ne_of_head hhead hy (by decide) (strAppend_left_cancel he)

theorem teams_req_not_login (a : Auth) (tid : String) :
    isLoginCall (imlFetchRequest a (teamsApiPath tid) "GET" none) = false := by
  have hhead : (teamsApiPath tid).data.head? = some 't' :=
    strHead_append _ (strHead_append _ rfl)
  have hurl : imlFetchUrl (teamsApiPath tid) = IML_BASE ++ teamsApiPath tid :=
    imlFetchUrl_rel _ hhead (by decide) (by decide)
  have hy : ("admin/account/login" : String).data.head? = some 'a' := rfl
  simp only [isLoginCall, imlFetchRequest, hurl, decide_eq_false_iff_not]
  intro he
  exact str_ne_of_head hhead hy (by decide) (strAppend_left_cancel he)

theorem gamesRoute_calls_shape (env : Env) (net : Net) (a : Auth) (st en : Option String) :
    (gamesRoute env net a st en).calls = []
    ∨ ∃ nid s e2, (gamesRoute env net a st en).calls
        = [imlFetchRequest a (gamesApiPath nid s e2) "GET" none] := by
  cases hm : mustEnv "IML_NETWORK_ID" env.IML_NETWORK_ID with
  | error e => left; simp [gamesRoute, hm]
  | ok nid =>
    cases st with
    | none => left; cases en <;> simp [gamesRoute, hm]
    | some s =>
      cases en with
      | none => left; simp [gamesRoute, hm]
      | some e2 =>
        by_cases hse : s = "" ∨ e2 = ""
        · left; rcases hse with h | h <;> simp [gamesRoute, hm, h]
        · push_neg at hse
          right
          refine ⟨nid, s, e2, ?_⟩
          cases h2 : (imlFetch net a (gamesApiPath nid s e2) "GET" none).result <;>
            simp [gamesRoute, hm, hse.1, hse.2, h2, imlFetch_request]

theorem teamsRoute_calls_shape (net : Net) (a : Auth) (tid : String) :
    (teamsRoute net a tid).calls = [imlFetchRequest a (teamsApiPath tid) "GET" none] := by
  cases h : (imlFetch net a (teamsApiPath tid) "GET" none).result <;>
    simp [teamsRoute, h, imlFetch_request]

/-- C9: the games-listing and team-roster handlers never invoke `login()` and
never modify the Session record — the `auth` state is identical before and
after each request and no issued call targets the login endpoint — and when no
Session is held their outbound calls carry no `Authorization` header at all. -/
theorem c9_read_routes_frame (env : Env) (net : Net) (a : Auth)
    (st en : Option String) (tid : String) :
    (gamesRoute env net a st en).auth = a
    ∧ (teamsRoute net a tid).auth = a
    ∧ (gamesRoute env net a st en).calls.countP isLoginCall = 0
    ∧ (teamsRoute net a tid).calls.countP isLoginCall = 0
    ∧ (a.jwtTokenForSPA = none →
        (∀ r ∈ (gamesRoute env net a st en).calls, "Authorization" ∉ r.headers.map Prod.fst)
        ∧ (∀ r ∈ (teamsRoute net a tid).calls, "Authorization" ∉ r.headers.map Prod.fst)) := by
  have hteams := teamsRoute_calls_shape net a tid
  refine ⟨gamesRoute_auth env net a st en, teamsRoute_auth net a tid, ?_, ?_, ?_⟩
  · rcases gamesRoute_calls_shape env net a st en with h | ⟨nid, s, e2, h⟩
    · simp [h]
    · rw [h]
      simp [List.countP_cons, List.countP_nil, games_req_not_login]
  · rw [hteams]
    simp [List.countP_cons, List.countP_nil, teams_req_not_login]
  · intro hnone
    have hauth : imlAuthHeaders a = [] := by simp [imlAuthHeaders, hnone]
    constructor
    · intro r hr
      rcases gamesRoute_calls_shape env net a st en with h | ⟨nid, s, e2, h⟩
      · rw [h] at hr; exact absurd hr (by simp)
      · rw [h] at hr
        simp only [List.mem_singleton] at hr
        subst hr
        simp [imlFetchRequest, hauth]
    · intro r hr
      rw [hteams] at hr
      simp only [List.mem_singleton] at hr
      subst hr
      simp [imlFetchRequest, hauth]

/-- C9 witness: the frame conditions at the empty initial session, with the
no-session hypothesis discharged. -/
theorem c9_witness :
    (gamesRoute envFull netOK initialAuth (some "2024-01-01") (some "2024-02-01")).auth
        = initialAuth
    ∧ (teamsRoute netOK initialAuth "t9").auth = initialAuth
    ∧ (gamesRoute envFull netOK initialAuth (some "2024-01-01")
        (some "2024-02-01")).calls.countP isLoginCall = 0
    ∧ (teamsRoute netOK initialAuth "t9").calls.countP isLoginCall = 0
    ∧ ((∀ r ∈ (gamesRoute envFull netOK initialAuth (some "2024-01-01")
          (some "2024-02-01")).calls, "Authorization" ∉ r.headers.map Prod.fst)
      ∧ (∀ r ∈ (teamsRoute netOK initialAuth "t9").calls,
          "Authorization" ∉ r.headers.map Prod.fst)) :=
  have h := c9_read_routes_frame envFull netOK initialAuth
    (some "2024-01-01") (some "2024-02-01") "t9"
  ⟨h.1, h.2.1, h.2.2.1, h.2.2.2.1, h.2.2.2.2 rfl⟩

/-! ## Claim C10 -/

theorem mem_flatJoin {c : Char} {ls : List (List Char)} :
    c ∈ flatJoin ls ↔ ∃ l ∈ ls, c ∈ l := by
  induction ls with
  | nil => simp [flatJoin]
  | cons x xs ih =>
    show c ∈ x ++ flatJoin xs ↔ _
    simp [List.mem_append, ih]

theorem charUtf8Bytes_lt {c : Char} {b : Nat} (hb : b ∈ charUtf8Bytes c) : b < 256 := by
  by_cases h1 : c.toNat < 128
  · have he : charUtf8Bytes c = [c.toNat] := by simp [charUtf8Bytes, h1]
    rw [he] at hb
    simp at hb
    omega
  · by_cases h2 : c.toNat < 2048
    · have he : charUtf8Bytes c = [192 + c.toNat / 64 % 64, 128 + c.toNat % 64] := by
        simp [charUtf8Bytes, h1, h2]
      rw [he] at hb
      simp at hb
      rcases hb with rfl | rfl <;> omega
    · by_cases h3 : c.toNat < 65536
      · have he : charUtf8Bytes c
            = [224 + c.toNat / 4096 % 16, 128 + c.toNat / 64 % 64, 128 + c.toNat % 64] := by
          simp [charUtf8Bytes, h1, h2, h3]
        rw [he] at hb
        simp at hb
        rcases hb with rfl | rfl | rfl <;> omega
      · have he : charUtf8Bytes c
            = [240 + c.toNat / 262144 % 8, 128 + c.toNat / 4096 % 64,
               128 + c.toNat / 64 % 64, 128 + c.toNat % 64] := by
          simp [charUtf8Bytes, h1, h2, h3]
        rw [he] at hb
        simp at hb
        rcases hb with rfl | rfl | rfl | rfl <;> omega

theorem hexChar_not_meta :
    ∀ n, n < 16 →
      hexChar n ≠ '/' ∧ hexChar n ≠ '?' ∧ hexChar n ≠ '&' ∧ hexChar n ≠ '#'
        ∧ hexChar n ≠ '=' := by
  decide

theorem enc_no_meta (s : String) (c : Char) (hc : c ∈ (encodeURIComponent s).data)
    (hm : c = '/' ∨ c = '?' ∨ c = '&' ∨ c = '#' ∨ c = '=') : False := by
  have hdata : (encodeURIComponent s).data = flatJoin (s.data.map encChar) := rfl
  rw [hdata] at hc
  rcases mem_flatJoin.mp hc with ⟨l, hl, hcl⟩
  rcases List.mem_map.mp hl with ⟨x, hx, rfl⟩
  unfold encChar at hcl
  split at hcl
  · next hres =>
    simp only [List.mem_singleton] at hcl
    subst hcl
    rcases hm with rfl | rfl | rfl | rfl | rfl <;> exact absurd hres (by decide)
  · rcases mem_flatJoin.mp hcl with ⟨p, hp, hcp⟩
    rcases List.mem_map.mp hp with ⟨b, hb, rfl⟩
    have hblt := charUtf8Bytes_lt hb
    simp only [pctByte, List.mem_cons, List.mem_singleton, List.not_mem_nil, or_false] at hcp
    rcases hcp with rfl | rfl | rfl
    · rcases hm with h | h | h | h | h <;> exact absurd h (by decide)
    · have h16 : b / 16 < 16 := by omega
      have hh := hexChar_not_meta (b / 16) h16
      rcases hm with h | h | h | h | h
      · exact hh.1 h
      · exact hh.2.1 h
      · exact hh.2.2.1 h
      · exact hh.2.2.2.1 h
      · exact hh.2.2.2.2 h
    · have h16 : b % 16 < 16 := by omega
      have hh := hexChar_not_meta (b % 16) h16
      rcases hm with h | h | h | h | h
      · exact hh.1 h
      · exact hh.2.1 h
      · exact hh.2.2.1 h
      · exact hh.2.2.2.1 h
      · exact hh.2.2.2.2 h

theorem enc_count_meta (s : String) (c : Char)
    (hm : c = '/' ∨ c = '?' ∨ c = '&' ∨ c = '#' ∨ c = '=') :
    (encodeURIComponent s).data.count c = 0 :=
  List.count_eq_zero.mpr (fun hc => enc_no_meta s c hc hm)

theorem breakAtP_none (p : Char → Bool) (l : List Char) (h : ∀ c ∈ l, p c = false) :
    breakAtP p l = (l, none) := by
  induction l with
  | nil => rfl
  | cons x xs ih =>
    have hx := h x (by simp)
    simp [breakAtP, hx, ih (fun c hc => h c (by simp [hc]))]

theorem breakAtP_append (p : Char → Bool) (l₁ l₂ : List Char)
    (h : ∀ c ∈ l₁, p c = false) :
    breakAtP p (l₁ ++ l₂) = (l₁ ++ (breakAtP p l₂).1, (breakAtP p l₂).2) := by
  induction l₁ with
  | nil => rfl
  | cons x xs ih =>
    have hx := h x (by simp)
    simp [breakAtP, hx, ih (fun c hc => h c (by simp [hc]))]

/-- C10: for every value of the network identifier, the `start`/`end` query
parameters and the `teamId` path parameter, the outbound URL embeds each via
`encodeURIComponent`, whose output never contains a URL metacharacter
(`/ ? & # =`); consequently the games URL splits at its unique `?` into
exactly the intended three-segment path (two slashes) and a query holding
exactly the two intended parameters (one `&`), and the roster URL is exactly a
three-segment path with no query or fragment delimiter at all. -/
theorem c10_percent_encoding (nid st en tid : String) :
    (∀ s : String,
      (encodeURIComponent s).data.count '/' = 0
      ∧ (encodeURIComponent s).data.count '?' = 0
      ∧ (encodeURIComponent s).data.count '&' = 0
      ∧ (encodeURIComponent s).data.count '#' = 0
      ∧ (encodeURIComponent s).data.count '=' = 0)
    ∧ breakAtP (fun c => c = '?') (gamesApiPath nid st en).data
        = (("networks/" ++ encodeURIComponent nid ++ "/games").data,
           some (("start=" ++ encodeURIComponent st ++ "&end="
             ++ encodeURIComponent en).data))
    ∧ ("networks/" ++ encodeURIComponent nid ++ "/games").data.count '/' = 2
    ∧ ("networks/" ++ encodeURIComponent nid ++ "/games").data.count '?' = 0
    ∧ ("start=" ++ encodeURIComponent st ++ "&end="
        ++ encodeURIComponent en).data.count '&' = 1
    ∧ (teamsApiPath tid).data.count '/' = 2
    ∧ (teamsApiPath tid).data.count '?' = 0
    ∧ (teamsApiPath tid).data.count '&' = 0
    ∧ (teamsApiPath tid).data.count '#' = 0 := by
  have hcnt : ∀ (s : String) (c : Char),
      (c = '/' ∨ c = '?' ∨ c = '&' ∨ c = '#' ∨ c = '=') →
      (encodeURIComponent s).data.count c = 0 := fun s c hm => enc_count_meta s c hm
  refine ⟨?_, ?_, ?_, ?_, ?_, ?_, ?_, ?_, ?_⟩
  · intro s
    exact ⟨hcnt s _ (by simp), hcnt s _ (by simp), hcnt s _ (by simp),
      hcnt s _ (by simp), hcnt s _ (by simp)⟩
  · have hlit : ("/games?start=" : String).data
        = ("/games" : String).data ++ '?' :: ("start=" : String).data := rfl
    have hsplit : (gamesApiPath nid st en).data
        = (("networks/" ++ encodeURIComponent nid ++ "/games").data)
          ++ '?' :: (("start=" ++ encodeURIComponent st ++ "&end="
              ++ encodeURIComponent en).data) := by
      simp only [gamesApiPath, strData_append, hlit, List.append_assoc, List.cons_append,
        List.nil_append]
    rw [hsplit]
    have hpre : ∀ c ∈ ("networks/" ++ encodeURIComponent nid ++ "/games").data,
        (fun c => decide (c = '?')) c = false := by
      intro c hc
      simp only [strData_append, List.mem_append] at hc
      simp only [decide_eq_false_iff_not]
      rcases hc with (hc | hc) | hc
      · intro he; subst he; revert hc; decide
      · intro he; exact enc_no_meta nid c hc (by simp [he])
      · intro he; subst he; revert hc; decide
    rw [breakAtP_append _ _ _ hpre]
    simp [breakAtP]
  · simp only [strData_append, List.count_append]
    rw [enc_count_meta nid '/' (by simp)]
    decide
  · simp only [strData_append, List.count_append]
    rw [enc_count_meta nid '?' (by simp)]
    decide
  · simp only [strData_append, List.count_append]
    rw [enc_count_meta st '&' (by simp), enc_count_meta en '&' (by simp)]
    decide
  · simp only [teamsApiPath, strData_append, List.count_append]
    rw [enc_count_meta tid '/' (by simp)]
    decide
  · simp only [teamsApiPath, strData_append, List.count_append]
    rw [enc_count_meta tid '?' (by simp)]
    decide
  · simp only [teamsApiPath, strData_append, List.count_append]
    rw [enc_count_meta tid '&' (by simp)]
    decide
  · simp only [teamsApiPath, strData_append, List.count_append]
    rw [enc_count_meta tid '#' (by simp)]
    decide

end ImStats
